import Mathlib

/-!
Verification of the Meteora bid-ask rebalancer and its value-tracking
pipeline, modelled as a shallow embedding of
`src/scripts/bidAskRebalancer.ts` and the SQLite-backed
`src/services/valueTracker.ts`.  JavaScript numbers are modelled as
rationals; `BN` integer amounts as `ℤ`; timestamps (`Date.now()`) as `ℤ`
milliseconds; calendar dates (`YYYY-MM-DD` strings, ordered
lexicographically) as day indices in `ℕ`.
-/

namespace MeteoraBot

/-- One entry of a position's per-bin distribution
(`BinDistribution` in `bidAskRebalancer.ts`). -/
structure BinDistribution where
  binId : ℤ
  price : ℚ
  xAmount : ℚ
  yAmount : ℚ
deriving DecidableEq, Repr

/-- Token selector: `'x'` is the base token (SOL), `'y'` the quote token
(USDC). -/
inductive TokenSide where
  | x
  | y
deriving DecidableEq, Repr

/-- The `getAmount` selector used inside the distribution classifiers. -/
def getAmount (token : TokenSide) (bin : BinDistribution) : ℚ :=
  match token with
  | .x => bin.xAmount
  | .y => bin.yAmount

/-- Position state as observed each tick (`PositionState` in
`bidAskRebalancer.ts`). -/
structure PositionState where
  publicKey : String
  lowerBinId : ℤ
  upperBinId : ℤ
  totalXAmount : ℚ
  totalYAmount : ℚ
  binDistribution : List BinDistribution
deriving DecidableEq, Repr

/-- Rebalance direction: `bid` redeploys quote (buy side), `ask` redeploys
base (sell side).  Also used as the `priceType` of a price-history row. -/
inductive ActionType where
  | bid
  | ask
deriving DecidableEq, Repr

/-- A rebalance decision (`RebalanceAction` in `bidAskRebalancer.ts`);
`amount` is the `BN(Math.floor(total))` integer amount. -/
structure RebalanceAction where
  position : PositionState
  action : ActionType
  amount : ℤ
deriving DecidableEq, Repr

/-- `isAscendingDistribution` from `bidAskRebalancer.ts` (lines 304-319):
fewer than 2 bins is never ascending; otherwise compare half means with a
10% tolerance. -/
def isAscendingDistribution (distribution : List BinDistribution)
    (token : TokenSide) : Bool :=
  if distribution.length < 2 then false
  else
    let midIndex := distribution.length / 2
    let firstHalf := distribution.take midIndex
    let secondHalf := distribution.drop midIndex
    let firstHalfAvg := (firstHalf.map (getAmount token)).sum / (firstHalf.length : ℚ)
    let secondHalfAvg := (secondHalf.map (getAmount token)).sum / (secondHalf.length : ℚ)
    decide (secondHalfAvg > firstHalfAvg * (11 / 10))

/-- `isDescendingDistribution` from `bidAskRebalancer.ts` (lines 325-339). -/
def isDescendingDistribution (distribution : List BinDistribution)
    (token : TokenSide) : Bool :=
  if distribution.length < 2 then false
  else
    let midIndex := distribution.length / 2
    let firstHalf := distribution.take midIndex
    let secondHalf := distribution.drop midIndex
    let firstHalfAvg := (firstHalf.map (getAmount token)).sum / (firstHalf.length : ℚ)
    let secondHalfAvg := (secondHalf.map (getAmount token)).sum / (secondHalf.length : ℚ)
    decide (firstHalfAvg > secondHalfAvg * (11 / 10))

/-- The price of the highest bin, `binDistribution[len-1]?.price || 0`. -/
def upperBinPrice (position : PositionState) : ℚ :=
  ((position.binDistribution.getLast?).map BinDistribution.price).getD 0

/-- The price of the lowest bin, `binDistribution[0]?.price || 0`. -/
def lowerBinPrice (position : PositionState) : ℚ :=
  ((position.binDistribution.head?).map BinDistribution.price).getD 0

/-- `checkRebalanceNeeded` from `bidAskRebalancer.ts` (lines 351-423),
parameterised by `REBALANCE_PRICE_DEVIATION_PERCENT` (`deviationPercent`).
Case 1: price crossed above the range (all quote) and the quote amounts
are still ascending; case 2: price crossed below (all base) and the base
amounts are still descending. -/
def checkRebalanceNeeded (deviationPercent : ℚ) (position : PositionState)
    (currentPrice : ℚ) : Option RebalanceAction :=
  let deviationThreshold := deviationPercent / 100
  if position.totalXAmount = 0 ∧ position.totalYAmount > 0 then
    let priceThreshold := upperBinPrice position * (1 + deviationThreshold)
    if currentPrice ≤ priceThreshold then none
    else if isAscendingDistribution position.binDistribution .y then
      some ⟨position, .bid, ⌊position.totalYAmount⌋⟩
    else none
  else if position.totalYAmount = 0 ∧ position.totalXAmount > 0 then
    let priceThreshold := lowerBinPrice position * (1 - deviationThreshold)
    if currentPrice ≥ priceThreshold then none
    else if isDescendingDistribution position.binDistribution .x then
      some ⟨position, .ask, ⌊position.totalXAmount⌋⟩
    else none
  else none

/-- Mean of the chosen token's amounts over the first half of the
distribution (split at index `⌊n/2⌋`); stated from the spec's wording,
for comparison with the code's classifiers. -/
def firstHalfMean (distribution : List BinDistribution) (token : TokenSide) : ℚ :=
  let firstHalf := distribution.take (distribution.length / 2)
  (firstHalf.map (getAmount token)).sum / (firstHalf.length : ℚ)

/-- Mean of the chosen token's amounts over the second half of the
distribution (from index `⌊n/2⌋` on). -/
def secondHalfMean (distribution : List BinDistribution) (token : TokenSide) : ℚ :=
  let secondHalf := distribution.drop (distribution.length / 2)
  (secondHalf.map (getAmount token)).sum / (secondHalf.length : ℚ)

/-- C1: the rebalance decision is `none` whenever both token totals are
positive and whenever both are zero; any non-`none` decision requires
exactly one total to be zero with the other strictly positive. -/
theorem checkRebalanceNeeded_none_unless_single_sided (dev : ℚ)
    (p : PositionState) (price : ℚ) :
    (p.totalXAmount > 0 → p.totalYAmount > 0 →
      checkRebalanceNeeded dev p price = none) ∧
    (p.totalXAmount = 0 → p.totalYAmount = 0 →
      checkRebalanceNeeded dev p price = none) ∧
    (checkRebalanceNeeded dev p price ≠ none →
      (p.totalXAmount = 0 ∧ p.totalYAmount > 0) ∨
      (p.totalYAmount = 0 ∧ p.totalXAmount > 0)) := by
  refine ⟨?_, ?_, ?_⟩
  · intro hx hy
    have h1 : ¬(p.totalXAmount = 0 ∧ p.totalYAmount > 0) := by
      rintro ⟨hx0, _⟩
      exact absurd hx0 (ne_of_gt hx)
    have h2 : ¬(p.totalYAmount = 0 ∧ p.totalXAmount > 0) := by
      rintro ⟨hy0, _⟩
      exact absurd hy0 (ne_of_gt hy)
    unfold checkRebalanceNeeded
    rw [if_neg h1, if_neg h2]
  · intro hx hy
    have h1 : ¬(p.totalXAmount = 0 ∧ p.totalYAmount > 0) := by
      rintro ⟨_, hypos⟩
      exact absurd hy (ne_of_gt hypos)
    have h2 : ¬(p.totalYAmount = 0 ∧ p.totalXAmount > 0) := by
      rintro ⟨_, hxpos⟩
      exact absurd hx (ne_of_gt hxpos)
    unfold checkRebalanceNeeded
    rw [if_neg h1, if_neg h2]
  · intro hne
    by_cases h1 : p.totalXAmount = 0 ∧ p.totalYAmount > 0
    · exact Or.inl h1
    by_cases h2 : p.totalYAmount = 0 ∧ p.totalXAmount > 0
    · exact Or.inr h2
    exfalso
    apply hne
    unfold checkRebalanceNeeded
    rw [if_neg h1, if_neg h2]

/-- A mixed (both-sided) position used to exercise the C1 theorem. -/
def mixedPositionExample : PositionState :=
  { publicKey := "mixedPos"
    lowerBinId := 1
    upperBinId := 2
    totalXAmount := 3
    totalYAmount := 500
    binDistribution := [⟨1, 1, 2, 200⟩, ⟨2, 2, 1, 300⟩] }

/-- Witness for C1 at a concrete both-sided position. -/
theorem checkRebalanceNeeded_none_unless_single_sided_witness :
    checkRebalanceNeeded (1 / 2) mixedPositionExample 1 = none :=
  (checkRebalanceNeeded_none_unless_single_sided (1 / 2) mixedPositionExample 1).1
    (by norm_num [mixedPositionExample]) (by norm_num [mixedPositionExample])

/-- C3: distributions with fewer than 2 bins are never monotonic, and for
length ≥ 2 the classifiers compare the half means against a 10% margin
exactly as the spec states. -/
theorem isMonotonic_halfMean_spec (dist : List BinDistribution)
    (token : TokenSide) :
    (dist.length < 2 →
      isAscendingDistribution dist token = false ∧
      isDescendingDistribution dist token = false) ∧
    (2 ≤ dist.length →
      ((isAscendingDistribution dist token = true ↔
        secondHalfMean dist token > (11 / 10) * firstHalfMean dist token) ∧
       (isDescendingDistribution dist token = true ↔
        firstHalfMean dist token > (11 / 10) * secondHalfMean dist token))) := by
  constructor
  · intro hlt
    constructor
    · unfold isAscendingDistribution
      rw [if_pos hlt]
    · unfold isDescendingDistribution
      rw [if_pos hlt]
  · intro hge
    have hnlt : ¬ dist.length < 2 := not_lt.mpr hge
    constructor
    · unfold isAscendingDistribution
      rw [if_neg hnlt]
      simp only [decide_eq_true_eq]
      unfold secondHalfMean firstHalfMean
      rw [mul_comm]
    · unfold isDescendingDistribution
      rw [if_neg hnlt]
      simp only [decide_eq_true_eq]
      unfold secondHalfMean firstHalfMean
      rw [mul_comm]

/-- An all-quote position with total 1000 and ascending quote amounts,
used for C2: its bins are [300 at price 1, 700 at price 2]. -/
def c2QuotePosition : PositionState :=
  { publicKey := "quotePos"
    lowerBinId := 1
    upperBinId := 2
    totalXAmount := 0
    totalYAmount := 1000
    binDistribution := [⟨1, 1, 0, 300⟩, ⟨2, 2, 0, 700⟩] }

/-- C2 counterexample: an all-quote position with quoteTotal = 1000 and an
ascending quote distribution for which the decision is `none`, because the
current price (1) does not exceed the upper bin price (2) times
(1 + deviation): the claim omits the price-deviation gate. -/
theorem checkRebalanceNeeded_price_gate_counterexample :
    c2QuotePosition.totalXAmount = 0 ∧
    c2QuotePosition.totalYAmount = 1000 ∧
    isAscendingDistribution c2QuotePosition.binDistribution .y = true ∧
    checkRebalanceNeeded (1 / 2) c2QuotePosition 1 = none := by
  have hupper : upperBinPrice c2QuotePosition = 2 := rfl
  refine ⟨rfl, rfl, ?_, ?_⟩
  · norm_num [isAscendingDistribution, c2QuotePosition, getAmount]
  · simp only [checkRebalanceNeeded]
    rw [if_pos ⟨rfl, by norm_num [c2QuotePosition]⟩, if_pos]
    rw [hupper]
    norm_num

/-- C2 (amended): for an all-quote position with quoteTotal = 1000 whose
quote amounts are ascending, the decision is `bid` with amount 1000,
provided the current price strictly exceeds the upper bin price times
(1 + deviationPercent/100). -/
theorem checkRebalanceNeeded_all_quote_bid (dev : ℚ) (p : PositionState)
    (price : ℚ) (hx : p.totalXAmount = 0) (hy : p.totalYAmount = 1000)
    (hasc : isAscendingDistribution p.binDistribution .y = true)
    (hprice : upperBinPrice p * (1 + dev / 100) < price) :
    checkRebalanceNeeded dev p price = some ⟨p, .bid, 1000⟩ := by
  simp only [checkRebalanceNeeded]
  rw [if_pos ⟨hx, by rw [hy]; norm_num⟩, if_neg (not_le.mpr hprice),
    if_pos hasc, hy]
  norm_num

/-- Witness for the amended C2 at a concrete position and price 3
(above the gate 2 × 1.005). -/
theorem checkRebalanceNeeded_all_quote_bid_witness :
    checkRebalanceNeeded (1 / 2) c2QuotePosition 3 =
      some ⟨c2QuotePosition, .bid, 1000⟩ :=
  checkRebalanceNeeded_all_quote_bid (1 / 2) c2QuotePosition 3 rfl rfl
    (by norm_num [isAscendingDistribution, c2QuotePosition, getAmount])
    (by norm_num [upperBinPrice, c2QuotePosition])

/-- A three-bin quote-ascending distribution (spec's [200, 300, 500]
example) used to exercise the C3 theorem. -/
def ascendingQuoteExample : List BinDistribution :=
  [⟨1, 1, 0, 200⟩, ⟨2, 2, 0, 300⟩, ⟨3, 3, 0, 500⟩]

/-- Witness for C3 at the concrete [200, 300, 500] quote distribution. -/
theorem isMonotonic_halfMean_spec_witness :
    isAscendingDistribution ascendingQuoteExample .y = true ∧
    isDescendingDistribution ascendingQuoteExample .y = false := by
  have h := (isMonotonic_halfMean_spec ascendingQuoteExample .y).2 (by decide)
  refine ⟨h.1.mpr ?_, ?_⟩
  · norm_num [secondHalfMean, firstHalfMean, ascendingQuoteExample, getAmount]
  · have hne : ¬ isDescendingDistribution ascendingQuoteExample .y = true := by
      intro ht
      have hp := h.2.mp ht
      norm_num [secondHalfMean, firstHalfMean, ascendingQuoteExample, getAmount] at hp
    simpa using hne

/-- A position's unclaimed fees as read inside `checkAndClaimFees`. -/
structure FeePosition where
  publicKey : String
  feeX : ℚ
  feeY : ℚ
deriving DecidableEq, Repr

/-- USD value of one position's unclaimed fees
(`bidAskRebalancer.ts` lines 748-750). -/
def positionFeeUSD (tokenXDecimals tokenYDecimals : ℕ) (currentPrice : ℚ)
    (p : FeePosition) : ℚ :=
  p.feeX / 10 ^ tokenXDecimals * currentPrice + p.feeY / 10 ^ tokenYDecimals

/-- Aggregate unclaimed fee USD value across all positions
(`bidAskRebalancer.ts` lines 720-730): raw X and Y totals summed first,
then converted once. -/
def totalUnclaimedFeeUSD (tokenXDecimals tokenYDecimals : ℕ)
    (currentPrice : ℚ) (positions : List FeePosition) : ℚ :=
  let totalFeeX := (positions.map FeePosition.feeX).sum
  let totalFeeY := (positions.map FeePosition.feeY).sum
  totalFeeX / 10 ^ tokenXDecimals * currentPrice +
    totalFeeY / 10 ^ tokenYDecimals

/-- The claiming decision of `checkAndClaimFees`
(`bidAskRebalancer.ts` lines 704-823): if the aggregate is below the
global threshold nothing is claimed; otherwise each position is claimed
unless its own fee value is below the per-position minimum.  Returns the
keys of the positions whose fees get claimed (a claim record is written
for exactly these). -/
def checkAndClaimFees (thresholdUSD minPositionUSD : ℚ)
    (tokenXDecimals tokenYDecimals : ℕ) (currentPrice : ℚ)
    (positions : List FeePosition) : List String :=
  let totalFeeUSD :=
    totalUnclaimedFeeUSD tokenXDecimals tokenYDecimals currentPrice positions
  if totalFeeUSD < thresholdUSD then []
  else
    (positions.filter (fun p =>
      decide (¬ positionFeeUSD tokenXDecimals tokenYDecimals currentPrice p <
        minPositionUSD))).map FeePosition.publicKey

/-- C7 counterexample: a single position whose fee value equals the global
threshold exactly is claimed even though the aggregate does not strictly
exceed the threshold (the code gates on `<`, i.e. proceeds on `≥`). -/
theorem checkAndClaimFees_at_threshold_counterexample :
    totalUnclaimedFeeUSD 0 0 1 [⟨"p1", 0, 5⟩] = 5 ∧
    checkAndClaimFees 5 (1 / 10) 0 0 1 [⟨"p1", 0, 5⟩] = ["p1"] := by
  constructor
  · norm_num [totalUnclaimedFeeUSD]
  · simp only [checkAndClaimFees]
    rw [if_neg (by norm_num [totalUnclaimedFeeUSD])]
    norm_num [positionFeeUSD, List.filter]

/-- C7 (amended): no position is claimed unless the aggregate unclaimed
fee value meets or exceeds the global threshold; once it does, a position
is claimed iff its own fee value is at least the per-position minimum. -/
theorem checkAndClaimFees_threshold_spec (thresholdUSD minPositionUSD : ℚ)
    (dx dy : ℕ) (price : ℚ) (positions : List FeePosition)
    (hkeys : (positions.map FeePosition.publicKey).Nodup) :
    (checkAndClaimFees thresholdUSD minPositionUSD dx dy price positions ≠ [] →
      thresholdUSD ≤ totalUnclaimedFeeUSD dx dy price positions) ∧
    (thresholdUSD ≤ totalUnclaimedFeeUSD dx dy price positions →
      ∀ p ∈ positions,
        (p.publicKey ∈
            checkAndClaimFees thresholdUSD minPositionUSD dx dy price positions ↔
          minPositionUSD ≤ positionFeeUSD dx dy price p)) := by
  constructor
  · intro hne
    by_contra hlt
    apply hne
    simp only [checkAndClaimFees]
    rw [if_pos (not_le.mp hlt)]
  · intro hge p hp
    simp only [checkAndClaimFees]
    rw [if_neg (not_lt.mpr hge)]
    constructor
    · intro hmem
      obtain ⟨r, hr, hrkey⟩ := List.mem_map.mp hmem
      have hrpos : r ∈ positions := List.mem_of_mem_filter hr
      have hrp : r = p :=
        List.inj_on_of_nodup_map hkeys hrpos hp hrkey
      have hfil := List.of_mem_filter hr
      rw [hrp] at hfil
      simpa [not_lt] using hfil
    · intro hmin
      exact List.mem_map.mpr ⟨p,
        List.mem_filter.mpr ⟨hp, by simpa [not_lt] using hmin⟩, rfl⟩

/-- The spec's fee-claim scenario: $0.05 and $5.95 unclaimed, aggregate
$6. -/
def feeScenario : List FeePosition :=
  [⟨"a", 0, 1 / 20⟩, ⟨"b", 0, 119 / 20⟩]

/-- Witness for the amended C7 at the spec scenario: only the $5.95
position is claimed. -/
theorem checkAndClaimFees_threshold_spec_witness :
    "b" ∈ checkAndClaimFees 5 (1 / 10) 0 0 1 feeScenario ∧
    "a" ∉ checkAndClaimFees 5 (1 / 10) 0 0 1 feeScenario := by
  have h :=
    (checkAndClaimFees_threshold_spec 5 (1 / 10) 0 0 1 feeScenario
      (by simp [feeScenario])).2 (by norm_num [totalUnclaimedFeeUSD, feeScenario])
  constructor
  · exact (h ⟨"b", 0, 119 / 20⟩ (by simp [feeScenario])).mpr
      (by norm_num [positionFeeUSD])
  · intro hmem
    have hle := (h ⟨"a", 0, 1 / 20⟩ (by simp [feeScenario])).mp hmem
    norm_num [positionFeeUSD] at hle

/-- One row of the `accumulated_fees` table (claimed but not yet
reinvested fees). -/
structure AccumulatedFee where
  positionKey : String
  feeX : ℚ
  feeY : ℚ
deriving DecidableEq, Repr

/-- `clearAllAccumulatedFeeX` (`valueTracker.ts` lines 1450-1458):
`UPDATE accumulated_fees SET fee_x = 0 WHERE fee_x > 0`. -/
def clearAllAccumulatedFeeX (rows : List AccumulatedFee) :
    List AccumulatedFee :=
  rows.map (fun r => if r.feeX > 0 then { r with feeX := 0 } else r)

/-- `clearAllAccumulatedFeeY` (`valueTracker.ts` lines 1463-1471):
`UPDATE accumulated_fees SET fee_y = 0 WHERE fee_y > 0`. -/
def clearAllAccumulatedFeeY (rows : List AccumulatedFee) :
    List AccumulatedFee :=
  rows.map (fun r => if r.feeY > 0 then { r with feeY := 0 } else r)

/-- `cleanupEmptyAccumulatedFees` (`valueTracker.ts` lines 1476-1481):
`DELETE FROM accumulated_fees WHERE fee_x = 0 AND fee_y = 0`. -/
def cleanupEmptyAccumulatedFees (rows : List AccumulatedFee) :
    List AccumulatedFee :=
  rows.filter (fun r => decide (¬ (r.feeX = 0 ∧ r.feeY = 0)))

/-- The accumulated-fee clearing step at the end of `executeRebalance`
(`bidAskRebalancer.ts` lines 555-570): after a successful rebalance with
auto-reinvest on and a non-empty ledger, a `bid` that reinvested a
positive quote total clears every row's quote fee, an `ask` that
reinvested a positive base total clears every row's base fee, and
fully-zero rows are pruned. -/
def rebalanceClearAccumulatedFees (autoReinvest : Bool)
    (actionType : ActionType) (rows : List AccumulatedFee) :
    List AccumulatedFee :=
  let totalAccFeeX := (rows.map AccumulatedFee.feeX).sum
  let totalAccFeeY := (rows.map AccumulatedFee.feeY).sum
  if autoReinvest = true ∧ 0 < rows.length then
    if actionType = .bid ∧ totalAccFeeY > 0 then
      cleanupEmptyAccumulatedFees (clearAllAccumulatedFeeY rows)
    else if actionType = .ask ∧ totalAccFeeX > 0 then
      cleanupEmptyAccumulatedFees (clearAllAccumulatedFeeX rows)
    else rows
  else rows

/-- With nonnegative balances, clearing the quote side sets every row's
quote fee to zero. -/
theorem clearAllAccumulatedFeeY_eq_map (rows : List AccumulatedFee)
    (hnn : ∀ r ∈ rows, 0 ≤ r.feeY) :
    clearAllAccumulatedFeeY rows =
      rows.map (fun r => { r with feeY := 0 }) := by
  unfold clearAllAccumulatedFeeY
  apply List.map_congr_left
  intro r hr
  by_cases hpos : r.feeY > 0
  · rw [if_pos hpos]
  · rw [if_neg hpos]
    have h0 : r.feeY = 0 := le_antisymm (not_lt.mp hpos) (hnn r hr)
    cases r
    simp_all

/-- With nonnegative balances, clearing the base side sets every row's
base fee to zero. -/
theorem clearAllAccumulatedFeeX_eq_map (rows : List AccumulatedFee)
    (hnn : ∀ r ∈ rows, 0 ≤ r.feeX) :
    clearAllAccumulatedFeeX rows =
      rows.map (fun r => { r with feeX := 0 }) := by
  unfold clearAllAccumulatedFeeX
  apply List.map_congr_left
  intro r hr
  by_cases hpos : r.feeX > 0
  · rw [if_pos hpos]
  · rw [if_neg hpos]
    have h0 : r.feeX = 0 := le_antisymm (not_lt.mp hpos) (hnn r hr)
    cases r
    simp_all

/-- Quote-side clear followed by pruning keeps exactly the rows with a
nonzero base balance, base balances untouched. -/
theorem cleanup_clearAllAccumulatedFeeY (rows : List AccumulatedFee)
    (hnn : ∀ r ∈ rows, 0 ≤ r.feeY) :
    cleanupEmptyAccumulatedFees (clearAllAccumulatedFeeY rows) =
      (rows.filter (fun r => decide (¬ r.feeX = 0))).map
        (fun r => { r with feeY := 0 }) := by
  rw [clearAllAccumulatedFeeY_eq_map rows hnn]
  unfold cleanupEmptyAccumulatedFees
  rw [List.filter_map]
  congr 1
  apply List.filter_congr
  intro r hr
  simp

/-- Base-side clear followed by pruning keeps exactly the rows with a
nonzero quote balance, quote balances untouched. -/
theorem cleanup_clearAllAccumulatedFeeX (rows : List AccumulatedFee)
    (hnn : ∀ r ∈ rows, 0 ≤ r.feeX) :
    cleanupEmptyAccumulatedFees (clearAllAccumulatedFeeX rows) =
      (rows.filter (fun r => decide (¬ r.feeY = 0))).map
        (fun r => { r with feeX := 0 }) := by
  rw [clearAllAccumulatedFeeX_eq_map rows hnn]
  unfold cleanupEmptyAccumulatedFees
  rw [List.filter_map]
  congr 1
  apply List.filter_congr
  intro r hr
  simp

/-- C9: with auto-reinvest on and nonnegative balances, a `bid` rebalance
that reinvests a positive accumulated quote total zeroes every position's
accumulated quote fee while leaving base fees unchanged, an `ask` does the
symmetric thing for base fees, and in both cases exactly the rows whose
both balances end up zero are deleted. -/
theorem rebalanceClearAccumulatedFees_scoped (rows : List AccumulatedFee)
    (hnn : ∀ r ∈ rows, 0 ≤ r.feeX ∧ 0 ≤ r.feeY) :
    (0 < (rows.map AccumulatedFee.feeY).sum →
      rebalanceClearAccumulatedFees true .bid rows =
        (rows.filter (fun r => decide (¬ r.feeX = 0))).map
          (fun r => { r with feeY := 0 })) ∧
    (0 < (rows.map AccumulatedFee.feeX).sum →
      rebalanceClearAccumulatedFees true .ask rows =
        (rows.filter (fun r => decide (¬ r.feeY = 0))).map
          (fun r => { r with feeX := 0 })) := by
  constructor
  · intro hy
    have hne : 0 < rows.length := by
      rcases rows with _ | ⟨r, rest⟩
      · simp at hy
      · simp
    unfold rebalanceClearAccumulatedFees
    rw [if_pos ⟨rfl, hne⟩, if_pos ⟨rfl, hy⟩]
    exact cleanup_clearAllAccumulatedFeeY rows (fun r hr => (hnn r hr).2)
  · intro hx
    have hne : 0 < rows.length := by
      rcases rows with _ | ⟨r, rest⟩
      · simp at hx
      · simp
    unfold rebalanceClearAccumulatedFees
    rw [if_pos ⟨rfl, hne⟩, if_neg (fun h => by exact absurd h.1 (by simp)),
      if_pos ⟨rfl, hx⟩]
    exact cleanup_clearAllAccumulatedFeeX rows (fun r hr => (hnn r hr).1)

/-- A two-row accumulated-fee ledger used to exercise C9. -/
def accFeeLedgerExample : List AccumulatedFee :=
  [⟨"a", 1, 2⟩, ⟨"b", 0, 3⟩]

/-- Witness for C9: a bid rebalance on the example ledger zeroes all
quote fees, keeps the base fee of row a, and prunes row b. -/
theorem rebalanceClearAccumulatedFees_scoped_witness :
    rebalanceClearAccumulatedFees true .bid accFeeLedgerExample =
      [⟨"a", 1, 0⟩] := by
  have h := (rebalanceClearAccumulatedFees_scoped accFeeLedgerExample
    (by
      intro r hr
      simp only [accFeeLedgerExample, List.mem_cons, List.not_mem_nil,
        or_false] at hr
      rcases hr with h | h <;> subst h <;> norm_num)).1
    (by norm_num [accFeeLedgerExample])
  rw [h]
  norm_num [accFeeLedgerExample, List.filter]

/-- Regime classification of a position (`positionType` in
`valueTracker.ts`): `ask` = base-heavy, `bid` = quote-heavy. -/
inductive PositionType where
  | bid
  | ask
  | mixed
deriving DecidableEq, Repr

/-- Result of `calculatePositionValue` (`valueTracker.ts` lines 669-689). -/
structure PositionValueCalc where
  totalValueUSD : ℚ
  xValueUSD : ℚ
  yValueUSD : ℚ
deriving DecidableEq, Repr

/-- `calculatePositionValue`: base value is amount × bin price after
decimal normalisation, quote value is the normalised amount itself. -/
def calculatePositionValue (binDistribution : List BinDistribution)
    (tokenXDecimals tokenYDecimals : ℕ) : PositionValueCalc :=
  let xValueUSD :=
    (binDistribution.map
      (fun bin => bin.xAmount / 10 ^ tokenXDecimals * bin.price)).sum
  let yValueUSD :=
    (binDistribution.map (fun bin => bin.yAmount / 10 ^ tokenYDecimals)).sum
  ⟨xValueUSD + yValueUSD, xValueUSD, yValueUSD⟩

/-- `calculateWeightedAvgPrice` (`valueTracker.ts` lines 694-731):
accumulates reference value and base units over the bins (quote converted
at its own bin price when positive) and classifies the regime from the
side ratio against the 0.95/0.05 cutoffs. -/
def calculateWeightedAvgPrice (binDistribution : List BinDistribution)
    (tokenXDecimals tokenYDecimals : ℕ) (solRatio : ℚ) : ℚ × PositionType :=
  let step := fun (acc : ℚ × ℚ) (bin : BinDistribution) =>
    let xAmount := bin.xAmount / 10 ^ tokenXDecimals
    let yAmount := bin.yAmount / 10 ^ tokenYDecimals
    let acc1 := (acc.1 + xAmount * bin.price, acc.2 + xAmount)
    if bin.price > 0 then (acc1.1 + yAmount, acc1.2 + yAmount / bin.price)
    else acc1
  let totals := binDistribution.foldl step (0, 0)
  let avgPrice := if totals.2 > 0 then totals.1 / totals.2 else 0
  let positionType : PositionType :=
    if solRatio ≥ 95 / 100 then .ask
    else if solRatio ≤ 5 / 100 then .bid
    else .mixed
  (avgPrice, positionType)

/-- A row of the `position_price_history` table. -/
structure PriceRecord where
  positionKey : String
  timestamp : ℤ
  priceType : ActionType
  avgPrice : ℚ
  amount : ℚ
deriving DecidableEq, Repr

/-- Lookup in the `lastSolRatios` map (`Map.get`). -/
def lookupRatio (ratios : List (String × ℚ)) (key : String) : Option ℚ :=
  (ratios.find? (fun kv => kv.1 == key)).map Prod.snd

/-- Update in the `lastSolRatios` map (`Map.set`): replace the existing
entry or append a new one. -/
def setSolRatio (ratios : List (String × ℚ)) (key : String) (value : ℚ) :
    List (String × ℚ) :=
  if ratios.any (fun kv => kv.1 == key) then
    ratios.map (fun kv => if kv.1 == key then (kv.1, value) else kv)
  else ratios ++ [(key, value)]

/-- `recordPositionPrice` (`valueTracker.ts` lines 796-806): append one
history row. -/
def recordPositionPrice (history : List PriceRecord) (now : ℤ)
    (positionKey : String) (priceType : ActionType) (avgPrice amount : ℚ) :
    List PriceRecord :=
  history ++ [⟨positionKey, now, priceType, avgPrice, amount⟩]

/-- `checkAndRecordPriceChange` (`valueTracker.ts` lines 759-791): emit a
history row on a regime transition (or on a first observation already in
an extreme regime) and then store the current ratio. -/
def checkAndRecordPriceChange (ratios : List (String × ℚ))
    (history : List PriceRecord) (now : ℤ) (positionKey : String)
    (solRatio avgPrice xValueUSD yValueUSD : ℚ) :
    List (String × ℚ) × List PriceRecord :=
  let lastRatio := lookupRatio ratios positionKey
  let history2 :=
    match lastRatio with
    | some lastR =>
        let h1 :=
          if solRatio ≥ 95 / 100 ∧ lastR < 95 / 100 then
            recordPositionPrice history now positionKey .ask avgPrice xValueUSD
          else history
        if solRatio ≤ 5 / 100 ∧ lastR > 5 / 100 then
          recordPositionPrice h1 now positionKey .bid avgPrice yValueUSD
        else h1
    | none =>
        if solRatio ≥ 95 / 100 then
          recordPositionPrice history now positionKey .ask avgPrice xValueUSD
        else if solRatio ≤ 5 / 100 then
          recordPositionPrice history now positionKey .bid avgPrice yValueUSD
        else history
  (setSolRatio ratios positionKey solRatio, history2)

/-- The records the spec's transition rule (§4.3, claim C8) predicts for
one observation, stated from the spec's words for comparison with
`checkAndRecordPriceChange`. -/
def regimeTransitionRecords (prior : Option ℚ) (now : ℤ)
    (positionKey : String) (solRatio avgPrice xValueUSD yValueUSD : ℚ) :
    List PriceRecord :=
  match prior with
  | none =>
      if solRatio ≥ 95 / 100 then
        [⟨positionKey, now, .ask, avgPrice, xValueUSD⟩]
      else if solRatio ≤ 5 / 100 then
        [⟨positionKey, now, .bid, avgPrice, yValueUSD⟩]
      else []
  | some lastR =>
      (if lastR < 95 / 100 ∧ solRatio ≥ 95 / 100 then
        [⟨positionKey, now, .ask, avgPrice, xValueUSD⟩]
      else []) ++
      (if lastR > 5 / 100 ∧ solRatio ≤ 5 / 100 then
        [⟨positionKey, now, .bid, avgPrice, yValueUSD⟩]
      else [])

/-- `getLastPrices` (`valueTracker.ts` lines 736-749): most recent bid and
ask history rows of a position (`ORDER BY timestamp DESC LIMIT 1`,
modelled by searching the insertion-ordered list from the end). -/
def getLastPrices (history : List PriceRecord) (positionKey : String) :
    Option ℚ × Option ℚ :=
  let bidRecord := history.reverse.find?
    (fun r => r.positionKey == positionKey && decide (r.priceType = ActionType.bid))
  let askRecord := history.reverse.find?
    (fun r => r.positionKey == positionKey && decide (r.priceType = ActionType.ask))
  (bidRecord.map PriceRecord.avgPrice, askRecord.map PriceRecord.avgPrice)

/-- A `PositionValue` entry of a snapshot (`valueTracker.ts` lines
416-437).  The `priceRange` pair is not modelled: `Math.min`/`Math.max`
over an empty array give IEEE infinities, which have no rational
counterpart, and no claim reads it. -/
structure PositionValue where
  publicKey : String
  valueUSD : ℚ
  xAmount : ℚ
  yAmount : ℚ
  xValueUSD : ℚ
  yValueUSD : ℚ
  binCount : ℕ
  feeX : ℚ
  feeY : ℚ
  feeXUSD : ℚ
  feeYUSD : ℚ
  totalFeeUSD : ℚ
  positionType : PositionType
  solRatio : ℚ
  currentAvgPrice : ℚ
  lastBidPrice : Option ℚ
  lastAskPrice : Option ℚ
deriving DecidableEq, Repr

/-- The snapshot value returned by `takeSnapshot`. -/
structure ValueSnapshot where
  timestamp : ℤ
  totalValueUSD : ℚ
  currentPrice : ℚ
  positions : List PositionValue
deriving DecidableEq, Repr

/-- A durable row of the `snapshots` table.  The serialized `positions`
JSON column is not modelled: no claim reads it back. -/
structure SnapshotRow where
  timestamp : ℤ
  totalValueUSD : ℚ
  currentPrice : ℚ
deriving DecidableEq, Repr

/-- A row of the `operations` table. -/
structure OperationRow where
  timestamp : ℤ
  positionKey : String
  action : ActionType
  beforeValueUSD : ℚ
  afterValueUSD : ℚ
  amountProcessed : ℚ
  txSignature : Option String
deriving DecidableEq, Repr

/-- A row of the `daily_pnl` table (dates as day indices; the `TEXT`
ISO dates of the schema order lexicographically, i.e. chronologically). -/
structure DailyRow where
  date : ℕ
  openValue : ℚ
  closeValue : ℚ
  highValue : ℚ
  lowValue : ℚ
  pnl : ℚ
  pnlPercent : ℚ
  operations : ℕ
deriving DecidableEq, Repr

/-- The tracker's durable tables plus its process-local state
(`lastSolRatios` map and `lastSnapshotTime`). -/
structure TrackerState where
  snapshots : List SnapshotRow
  operations : List OperationRow
  dailyPnl : List DailyRow
  priceHistory : List PriceRecord
  lastSolRatios : List (String × ℚ)
  lastSnapshotTime : ℤ
deriving DecidableEq, Repr

/-- `SNAPSHOT_INTERVAL_MS = 10 * 60 * 1000`. -/
def snapshotIntervalMs : ℤ := 10 * 60 * 1000

/-- Milliseconds per day. -/
def msPerDay : ℤ := 24 * 60 * 60 * 1000

/-- The 30-day snapshot retention window of `cleanOldData`. -/
def thirtyDaysMs : ℤ := 30 * msPerDay

/-- The 90-day operation retention window of `cleanOldData`. -/
def ninetyDaysMs : ℤ := 90 * msPerDay

/-- `cleanOldData` (`valueTracker.ts` lines 658-664): delete snapshots
older than 30 days and operations older than 90 days. -/
def cleanOldData (st : TrackerState) (now : ℤ) : TrackerState :=
  { st with
    snapshots := st.snapshots.filter
      (fun s => decide (¬ s.timestamp < now - thirtyDaysMs))
    operations := st.operations.filter
      (fun o => decide (¬ o.timestamp < now - ninetyDaysMs)) }

/-- `SELECT close_value FROM daily_pnl ORDER BY date DESC LIMIT 1`: the
row with the greatest date (dates are unique in the table). -/
def latestDailyRow : List DailyRow → Option DailyRow
  | [] => none
  | r :: rest =>
    match latestDailyRow rest with
    | none => some r
    | some m => if r.date > m.date then some r else some m

/-- `SELECT * FROM daily_pnl WHERE date = ?`. -/
def findDaily (rows : List DailyRow) (date : ℕ) : Option DailyRow :=
  rows.find? (fun r => r.date == date)

/-- `updateDailyPnL` (`valueTracker.ts` lines 957-992).  On a new day the
open value is `yesterday?.close_value || totalValueUSD`: JavaScript `||`
falls back not only when no prior row exists but also when the prior
close value is `0` (falsy), modelled by the `if c = 0` test. -/
def updateDailyPnL (rows : List DailyRow) (today : ℕ) (totalValueUSD : ℚ) :
    List DailyRow :=
  match findDaily rows today with
  | none =>
    let yesterdayClose := (latestDailyRow rows).map DailyRow.closeValue
    let openValue :=
      match yesterdayClose with
      | some c => if c = 0 then totalValueUSD else c
      | none => totalValueUSD
    let pnl := totalValueUSD - openValue
    let pnlPercent := if openValue > 0 then pnl / openValue * 100 else 0
    rows ++ [⟨today, openValue, totalValueUSD, totalValueUSD, totalValueUSD,
      pnl, pnlPercent, 0⟩]
  | some todayRecord =>
    let highValue := max todayRecord.highValue totalValueUSD
    let lowValue := min todayRecord.lowValue totalValueUSD
    let pnl := totalValueUSD - todayRecord.openValue
    let pnlPercent :=
      if todayRecord.openValue > 0 then pnl / todayRecord.openValue * 100
      else 0
    rows.map (fun r =>
      if r.date == today then
        { r with closeValue := totalValueUSD, highValue := highValue,
                 lowValue := lowValue, pnl := pnl, pnlPercent := pnlPercent }
      else r)

/-- The per-tick position input of `takeSnapshot`. -/
structure SnapshotPositionInput where
  publicKey : String
  binDistribution : List BinDistribution
  lowerBinId : ℤ
  upperBinId : ℤ
  totalXAmount : ℚ
  totalYAmount : ℚ
  feeX : ℚ
  feeY : ℚ
deriving DecidableEq, Repr

/-- Accumulator of `takeSnapshot`'s per-position loop: collected
`PositionValue`s, running total, and the threaded regime/price-history
state. -/
structure SnapshotAccum where
  values : List PositionValue
  totalValueUSD : ℚ
  ratios : List (String × ℚ)
  history : List PriceRecord
deriving DecidableEq, Repr

/-- One iteration of `takeSnapshot`'s loop (`valueTracker.ts` lines
830-884): value the position, read the last bid/ask prices, run the
regime transition detector, and push the `PositionValue`. -/
def takeSnapshotStep (tokenXDecimals tokenYDecimals : ℕ) (currentPrice : ℚ)
    (now : ℤ) (acc : SnapshotAccum) (pos : SnapshotPositionInput) :
    SnapshotAccum :=
  let pv := calculatePositionValue pos.binDistribution tokenXDecimals tokenYDecimals
  let feeXUSD := pos.feeX / 10 ^ tokenXDecimals * currentPrice
  let feeYUSD := pos.feeY / 10 ^ tokenYDecimals
  let totalFeeUSD := feeXUSD + feeYUSD
  let solRatio := if pv.totalValueUSD > 0 then pv.xValueUSD / pv.totalValueUSD else 0
  let wavg := calculateWeightedAvgPrice pos.binDistribution tokenXDecimals
    tokenYDecimals solRatio
  let lastPrices := getLastPrices acc.history pos.publicKey
  let updated := checkAndRecordPriceChange acc.ratios acc.history now
    pos.publicKey solRatio wavg.1 pv.xValueUSD pv.yValueUSD
  { values := acc.values ++ [⟨pos.publicKey, pv.totalValueUSD,
      pos.totalXAmount, pos.totalYAmount, pv.xValueUSD, pv.yValueUSD,
      pos.binDistribution.length, pos.feeX, pos.feeY, feeXUSD, feeYUSD,
      totalFeeUSD, wavg.2, solRatio, wavg.1, lastPrices.1, lastPrices.2⟩]
    totalValueUSD := acc.totalValueUSD + pv.totalValueUSD
    ratios := updated.1
    history := updated.2 }

/-- The whole per-position loop of `takeSnapshot` on a given state. -/
def takeSnapshotAccum (st : TrackerState)
    (positions : List SnapshotPositionInput) (currentPrice : ℚ)
    (tokenXDecimals tokenYDecimals : ℕ) (now : ℤ) : SnapshotAccum :=
  positions.foldl (takeSnapshotStep tokenXDecimals tokenYDecimals currentPrice now)
    ⟨[], 0, st.lastSolRatios, st.priceHistory⟩

/-- The throttle predicate of `takeSnapshot` (lines 897-902): the durable
insert happens exactly when at least `snapshotIntervalMs` elapsed since
the last persisted snapshot. -/
def takeSnapshotPersists (st : TrackerState) (now : ℤ) : Bool :=
  decide (¬ now - st.lastSnapshotTime < snapshotIntervalMs)

/-- `takeSnapshot` (`valueTracker.ts` lines 812-919): always computes and
returns the snapshot; persists it, updates the daily PnL and cleans old
data only past the throttle. -/
def takeSnapshot (st : TrackerState) (positions : List SnapshotPositionInput)
    (currentPrice : ℚ) (tokenXDecimals tokenYDecimals : ℕ) (now : ℤ)
    (today : ℕ) : ValueSnapshot × TrackerState :=
  let acc := takeSnapshotAccum st positions currentPrice tokenXDecimals
    tokenYDecimals now
  let snapshot : ValueSnapshot := ⟨now, acc.totalValueUSD, currentPrice, acc.values⟩
  let st1 := { st with lastSolRatios := acc.ratios, priceHistory := acc.history }
  if now - st.lastSnapshotTime < snapshotIntervalMs then
    (snapshot, st1)
  else
    let newRow : SnapshotRow := ⟨now, acc.totalValueUSD, currentPrice⟩
    let st2 := { st1 with
      snapshots := st1.snapshots ++ [newRow]
      lastSnapshotTime := now }
    let st3 := { st2 with
      dailyPnl := updateDailyPnL st2.dailyPnl today acc.totalValueUSD }
    (snapshot, cleanOldData st3 now)

/-- `recordOperation` (`valueTracker.ts` lines 924-952): append the
operation row and refresh today's operation count in `daily_pnl`. -/
def recordOperation (st : TrackerState) (now : ℤ) (today : ℕ)
    (positionKey : String) (action : ActionType)
    (beforeValueUSD afterValueUSD amountProcessed : ℚ)
    (txSignature : Option String) : TrackerState :=
  let operations2 := st.operations ++
    [⟨now, positionKey, action, beforeValueUSD, afterValueUSD,
      amountProcessed, txSignature⟩]
  let todayStart := (today : ℤ) * msPerDay
  let todayEnd := todayStart + msPerDay
  let count := (operations2.filter
    (fun o => decide (todayStart ≤ o.timestamp ∧ o.timestamp < todayEnd))).length
  { st with
    operations := operations2
    dailyPnl := st.dailyPnl.map (fun r =>
      if r.date == today then { r with operations := count } else r) }

/-- Insert a daily row into a list sorted by descending date. -/
def insertDailyDesc (r : DailyRow) : List DailyRow → List DailyRow
  | [] => [r]
  | s :: rest =>
    if r.date ≥ s.date then r :: s :: rest else s :: insertDailyDesc r rest

/-- Sort daily rows by descending date (`ORDER BY date DESC`). -/
def sortDailyDesc : List DailyRow → List DailyRow
  | [] => []
  | r :: rest => insertDailyDesc r (sortDailyDesc rest)

/-- `SELECT * FROM daily_pnl ORDER BY date DESC LIMIT ?` followed by
`reverse()`: the most recent `days` rows ordered oldest first. -/
def recentDailyRows (rows : List DailyRow) (days : ℕ) : List DailyRow :=
  ((sortDailyDesc rows).take days).reverse

/-- `calculateAPY` (`valueTracker.ts` lines 997-1032), parameterised by a
model `powFn` of `Math.pow` (its fractional exponentiation has no exact
rational counterpart). -/
def calculateAPY (powFn : ℚ → ℚ → ℚ) (rows : List DailyRow) (days : ℕ) : ℚ :=
  let recentDays := recentDailyRows rows days
  if recentDays.length < 2 then 0
  else
    let startValue := ((recentDays.head?).map DailyRow.openValue).getD 0
    let endValue := ((recentDays.getLast?).map DailyRow.closeValue).getD 0
    if startValue ≤ 0 then 0
    else
      let totalReturn := (endValue - startValue) / startValue
      let actualDays : ℚ := (recentDays.length : ℚ)
      if recentDays.length < 3 then
        let dailyReturn := totalReturn / actualDays
        let simpleAPY := dailyReturn * 365 * 100
        max (-1000) (min 10000 simpleAPY)
      else
        let clampedReturn := max (-(99 / 100)) (min 10 totalReturn)
        let apy := (powFn (1 + clampedReturn) (365 / actualDays) - 1) * 100
        max (-1000) (min 100000 apy)

/-- `clamp(x, lo, hi)` as the spec writes it. -/
def clamp (x lo hi : ℚ) : ℚ := max lo (min hi x)

/-- The APY formula exactly as claim C6 states it, for comparison with
`calculateAPY`. -/
def calculateAPYSpec (powFn : ℚ → ℚ → ℚ) (rows : List DailyRow)
    (days : ℕ) : ℚ :=
  let recentDays := recentDailyRows rows days
  let n := recentDays.length
  if n < 2 then 0
  else
    let firstOpen := ((recentDays.head?).map DailyRow.openValue).getD 0
    let lastClose := ((recentDays.getLast?).map DailyRow.closeValue).getD 0
    if firstOpen ≤ 0 then 0
    else
      let totalReturn := (lastClose - firstOpen) / firstOpen
      if n < 3 then clamp (totalReturn / (n : ℚ) * 365 * 100) (-1000) 10000
      else
        clamp ((powFn (1 + clamp totalReturn (-(99 / 100)) 10)
          (365 / (n : ℚ)) - 1) * 100) (-1000) 100000

/-- Replacing the value under an existing key makes it the one that
lookup finds. -/
theorem lookupRatio_map_set (key : String) (v : ℚ) :
    ∀ ratios : List (String × ℚ),
      ratios.any (fun kv => kv.1 == key) = true →
      lookupRatio (ratios.map
        (fun kv => if kv.1 == key then (kv.1, v) else kv)) key = some v := by
  intro ratios
  induction ratios with
  | nil => intro h; simp at h
  | cons kv rest ih =>
    intro h
    rw [List.map_cons]
    by_cases hk : (kv.1 == key) = true
    · rw [if_pos hk]
      unfold lookupRatio
      simp [List.find?_cons, hk]
    · rw [if_neg hk]
      unfold lookupRatio
      simp only [List.find?_cons, hk, Bool.false_eq_true]
      have hrest : rest.any (fun kv => kv.1 == key) = true := by
        rcases List.any_eq_true.mp h with ⟨x, hx, hxk⟩
        rcases List.mem_cons.mp hx with rfl | hx2
        · exact absurd hxk hk
        · exact List.any_eq_true.mpr ⟨x, hx2, hxk⟩
      exact ih hrest

/-- After `setSolRatio`, looking up the key yields the stored value. -/
theorem lookupRatio_setSolRatio (ratios : List (String × ℚ)) (key : String)
    (v : ℚ) : lookupRatio (setSolRatio ratios key v) key = some v := by
  unfold setSolRatio
  by_cases h : ratios.any (fun kv => kv.1 == key) = true
  · rw [if_pos h]
    exact lookupRatio_map_set key v ratios h
  · rw [if_neg h]
    unfold lookupRatio
    rw [List.find?_append]
    have hnone : ratios.find? (fun kv => kv.1 == key) = none := by
      rw [List.find?_eq_none]
      intro x hx hxk
      exact h (List.any_eq_true.mpr ⟨x, hx, hxk⟩)
    rw [hnone]
    simp [List.find?]

/-- C8: one regime observation appends exactly the records the spec's
transition rule predicts (seed only in an extreme regime on first sight,
otherwise emit on an upward 0.95 crossing or a downward 0.05 crossing,
with the base/quote reference value as amount), and the stored ratio is
then the current one. -/
theorem checkAndRecordPriceChange_spec (ratios : List (String × ℚ))
    (history : List PriceRecord) (now : ℤ) (key : String)
    (solRatio avgPrice xValueUSD yValueUSD : ℚ) :
    checkAndRecordPriceChange ratios history now key solRatio avgPrice
        xValueUSD yValueUSD =
      (setSolRatio ratios key solRatio,
        history ++ regimeTransitionRecords (lookupRatio ratios key) now key
          solRatio avgPrice xValueUSD yValueUSD) ∧
    lookupRatio (checkAndRecordPriceChange ratios history now key solRatio
      avgPrice xValueUSD yValueUSD).1 key = some solRatio := by
  have hmain : checkAndRecordPriceChange ratios history now key solRatio
      avgPrice xValueUSD yValueUSD =
      (setSolRatio ratios key solRatio,
        history ++ regimeTransitionRecords (lookupRatio ratios key) now key
          solRatio avgPrice xValueUSD yValueUSD) := by
    unfold checkAndRecordPriceChange regimeTransitionRecords
    dsimp only
    cases lookupRatio ratios key with
    | none =>
      dsimp only
      by_cases h1 : solRatio ≥ 95 / 100
      · rw [if_pos h1, if_pos h1]
        rfl
      · rw [if_neg h1, if_neg h1]
        by_cases h2 : solRatio ≤ 5 / 100
        · rw [if_pos h2, if_pos h2]
          rfl
        · rw [if_neg h2, if_neg h2]
          simp [recordPositionPrice]
    | some lastR =>
      dsimp only
      by_cases hA : solRatio ≥ 95 / 100 ∧ lastR < 95 / 100
      · have hA2 : lastR < 95 / 100 ∧ solRatio ≥ 95 / 100 := ⟨hA.2, hA.1⟩
        have hB : ¬(solRatio ≤ 5 / 100 ∧ lastR > 5 / 100) := by
          rintro ⟨hb1, _⟩
          have := lt_of_le_of_lt hb1 (by norm_num : (5 : ℚ) / 100 < 95 / 100)
          exact absurd hA.1 (not_le.mpr this)
        have hB2 : ¬(lastR > 5 / 100 ∧ solRatio ≤ 5 / 100) := by
          rintro ⟨hb1, hb2⟩
          exact hB ⟨hb2, hb1⟩
        rw [if_pos hA, if_pos hA2, if_neg hB, if_neg hB2]
        simp [recordPositionPrice]
      · have hA2 : ¬(lastR < 95 / 100 ∧ solRatio ≥ 95 / 100) := by
          rintro ⟨ha1, ha2⟩
          exact hA ⟨ha2, ha1⟩
        rw [if_neg hA, if_neg hA2]
        by_cases hB : solRatio ≤ 5 / 100 ∧ lastR > 5 / 100
        · have hB2 : lastR > 5 / 100 ∧ solRatio ≤ 5 / 100 := ⟨hB.2, hB.1⟩
          rw [if_pos hB, if_pos hB2]
          simp [recordPositionPrice]
        · have hB2 : ¬(lastR > 5 / 100 ∧ solRatio ≤ 5 / 100) := by
            rintro ⟨hb1, hb2⟩
            exact hB ⟨hb2, hb1⟩
          rw [if_neg hB, if_neg hB2]
          simp [recordPositionPrice]
  refine ⟨hmain, ?_⟩
  rw [hmain]
  exact lookupRatio_setSolRatio ratios key solRatio

/-- C6: `calculateAPY` computes exactly the formula of the claim (0 on
fewer than 2 rows or nonpositive first open; simple annualisation clamped
to [−1000, 10000] on 2 rows; clamped compound annualisation on 3 or
more), for every model of `Math.pow`. -/
theorem calculateAPY_matches_spec (powFn : ℚ → ℚ → ℚ)
    (rows : List DailyRow) (days : ℕ) :
    calculateAPY powFn rows days = calculateAPYSpec powFn rows days := by
  unfold calculateAPY calculateAPYSpec clamp
  rfl

/-- Date-preserving per-row updates commute with the date lookup. -/
theorem findDaily_map_datePreserving (f : DailyRow → DailyRow) (d : ℕ)
    (hdate : ∀ r, (f r).date = r.date) :
    ∀ rows : List DailyRow,
      findDaily (rows.map f) d = (findDaily rows d).map f := by
  intro rows
  induction rows with
  | nil => rfl
  | cons r rest ih =>
    unfold findDaily at ih ⊢
    rw [List.map_cons]
    simp only [List.find?_cons, hdate r]
    cases hr : (r.date == d) <;> simp [hr, ih]

/-- The row `updateDailyPnL` inserts on a new calendar day, per the
amended C5 rule: open value is the latest prior close, except that a
missing prior row or a prior close of 0 falls back to the current
total (the JavaScript `||`). -/
def newDayRow (rows : List DailyRow) (today : ℕ) (totalValueUSD : ℚ) :
    DailyRow :=
  let openValue :=
    match (latestDailyRow rows).map DailyRow.closeValue with
    | some c => if c = 0 then totalValueUSD else c
    | none => totalValueUSD
  ⟨today, openValue, totalValueUSD, totalValueUSD, totalValueUSD,
    totalValueUSD - openValue,
    (if openValue > 0 then
      (totalValueUSD - openValue) / openValue * 100
    else 0), 0⟩

/-- C5 (amended): a new day's row opens at the latest prior close when
that close is nonzero (at the current total when no prior day exists),
and every upsert leaves the open value unchanged while recomputing
pnl = close − open and pnlPercent from that same open value (0 when the
open value is not positive). -/
theorem updateDailyPnL_open_close_invariant (rows : List DailyRow)
    (today : ℕ) (v : ℚ) :
    (findDaily rows today = none →
      updateDailyPnL rows today v = rows ++ [newDayRow rows today v] ∧
      (∀ c, latestDailyRow rows = some c → c.closeValue ≠ 0 →
        (newDayRow rows today v).openValue = c.closeValue) ∧
      (latestDailyRow rows = none → (newDayRow rows today v).openValue = v) ∧
      (newDayRow rows today v).pnl =
        (newDayRow rows today v).closeValue -
          (newDayRow rows today v).openValue) ∧
    (∀ r0, findDaily rows today = some r0 →
      findDaily (updateDailyPnL rows today v) today = some
        { r0 with closeValue := v,
                  highValue := max r0.highValue v,
                  lowValue := min r0.lowValue v,
                  pnl := v - r0.openValue,
                  pnlPercent := if r0.openValue > 0 then
                      (v - r0.openValue) / r0.openValue * 100
                    else 0 }) := by
  constructor
  · intro hnone
    refine ⟨?_, ?_, ?_, ?_⟩
    · unfold updateDailyPnL
      rw [hnone]
      rfl
    · intro c hc hne
      unfold newDayRow
      rw [hc]
      dsimp only [Option.map]
      rw [if_neg hne]
    · intro hc
      unfold newDayRow
      rw [hc]
      rfl
    · unfold newDayRow
      dsimp only
  · intro r0 hr0
    have hdate0 : (r0.date == today) = true :=
      List.find?_some (p := fun r : DailyRow => r.date == today) hr0
    unfold updateDailyPnL
    rw [hr0]
    dsimp only
    rw [findDaily_map_datePreserving _ today
      (by
        intro r
        by_cases hr : (r.date == today) = true
        · rw [if_pos hr]
        · rw [if_neg hr])]
    rw [hr0]
    dsimp only [Option.map]
    rw [if_pos hdate0]

/-- A prior day closing at exactly 0, used for the C5 counterexample. -/
def c5PriorDay : DailyRow := ⟨0, 10, 0, 10, 0, -10, -100, 0⟩

/-- C5 counterexample: with a prior day whose close value is 0, the new
day's row opens at the current total (5), not at the prior close (0):
the JavaScript `||` treats a 0 close as missing. -/
theorem updateDailyPnL_zero_close_counterexample :
    latestDailyRow [c5PriorDay] = some c5PriorDay ∧
    c5PriorDay.closeValue = 0 ∧
    updateDailyPnL [c5PriorDay] 1 5 =
      [c5PriorDay, ⟨1, 5, 5, 5, 5, 0, 0, 0⟩] := by
  refine ⟨rfl, rfl, ?_⟩
  have hnone : findDaily [c5PriorDay] 1 = none := rfl
  unfold updateDailyPnL
  rw [hnone]
  dsimp only [latestDailyRow, c5PriorDay]
  norm_num

/-- A prior day with a nonzero close, used for the C5 witness. -/
def c5PriorDayNonzero : DailyRow := ⟨0, 10, 7, 12, 6, -3, -30, 0⟩

/-- Witness for the amended C5: a new day after a day closing at 7 opens
at exactly 7. -/
theorem updateDailyPnL_open_close_invariant_witness :
    updateDailyPnL [c5PriorDayNonzero] 1 5 =
      [c5PriorDayNonzero] ++ [newDayRow [c5PriorDayNonzero] 1 5] ∧
    (newDayRow [c5PriorDayNonzero] 1 5).openValue = 7 := by
  have h := (updateDailyPnL_open_close_invariant [c5PriorDayNonzero] 1 5).1 rfl
  refine ⟨h.1, ?_⟩
  have h2 := h.2.1 c5PriorDayNonzero rfl
    (by norm_num [c5PriorDayNonzero])
  rw [h2]
  rfl

/-- Sum of the positions' computed values, the pure valuation of one
tick's inputs. -/
def positionsTotalValue (positions : List SnapshotPositionInput)
    (tokenXDecimals tokenYDecimals : ℕ) : ℚ :=
  (positions.map (fun pos =>
    (calculatePositionValue pos.binDistribution tokenXDecimals
      tokenYDecimals).totalValueUSD)).sum

/-- The snapshot loop accumulates exactly the sum of the position
values. -/
theorem foldl_takeSnapshotStep_totalValue (dx dy : ℕ) (price : ℚ)
    (now : ℤ) :
    ∀ (ps : List SnapshotPositionInput) (acc : SnapshotAccum),
      (ps.foldl (takeSnapshotStep dx dy price now) acc).totalValueUSD =
        acc.totalValueUSD + positionsTotalValue ps dx dy := by
  intro ps
  induction ps with
  | nil =>
    intro acc
    simp [positionsTotalValue]
  | cons p rest ih =>
    intro acc
    rw [List.foldl_cons, ih]
    unfold takeSnapshotStep positionsTotalValue
    dsimp only
    rw [List.map_cons, List.sum_cons]
    ring

/-- The loop's running total equals the pure valuation of the inputs. -/
theorem takeSnapshotAccum_totalValue (st : TrackerState)
    (ps : List SnapshotPositionInput) (price : ℚ) (dx dy : ℕ) (now : ℤ) :
    (takeSnapshotAccum st ps price dx dy now).totalValueUSD =
      positionsTotalValue ps dx dy := by
  unfold takeSnapshotAccum
  rw [foldl_takeSnapshotStep_totalValue]
  exact zero_add _

/-- A throttled `takeSnapshot` call: the computed snapshot is returned and
only the regime/price-history state changes. -/
theorem takeSnapshot_throttled (st : TrackerState)
    (ps : List SnapshotPositionInput) (price : ℚ) (dx dy : ℕ) (now : ℤ)
    (today : ℕ) (h : takeSnapshotPersists st now = false) :
    takeSnapshot st ps price dx dy now today =
      (⟨now, (takeSnapshotAccum st ps price dx dy now).totalValueUSD, price,
         (takeSnapshotAccum st ps price dx dy now).values⟩,
       { st with
          lastSolRatios := (takeSnapshotAccum st ps price dx dy now).ratios
          priceHistory := (takeSnapshotAccum st ps price dx dy now).history }) := by
  have hc : now - st.lastSnapshotTime < snapshotIntervalMs := by
    unfold takeSnapshotPersists at h
    simpa using h
  unfold takeSnapshot
  rw [if_pos hc]

/-- A persisting `takeSnapshot` call: the snapshot row is appended, the
daily PnL upserted, the throttle timestamp advanced, and old data
cleaned. -/
theorem takeSnapshot_persisted (st : TrackerState)
    (ps : List SnapshotPositionInput) (price : ℚ) (dx dy : ℕ) (now : ℤ)
    (today : ℕ) (h : takeSnapshotPersists st now = true) :
    takeSnapshot st ps price dx dy now today =
      (⟨now, (takeSnapshotAccum st ps price dx dy now).totalValueUSD, price,
         (takeSnapshotAccum st ps price dx dy now).values⟩,
       cleanOldData
         { st with
            lastSolRatios := (takeSnapshotAccum st ps price dx dy now).ratios
            priceHistory := (takeSnapshotAccum st ps price dx dy now).history
            snapshots := st.snapshots ++
              [⟨now, (takeSnapshotAccum st ps price dx dy now).totalValueUSD,
                price⟩]
            lastSnapshotTime := now
            dailyPnl := updateDailyPnL st.dailyPnl today
              (takeSnapshotAccum st ps price dx dy now).totalValueUSD } now) := by
  have hc : ¬ now - st.lastSnapshotTime < snapshotIntervalMs := by
    unfold takeSnapshotPersists at h
    simpa using h
  unfold takeSnapshot
  rw [if_neg hc]

/-- Both branches of `takeSnapshot` carry the loop's price history into
the resulting state: the regime side effects are not throttled. -/
theorem takeSnapshot_snd_priceHistory (st : TrackerState)
    (ps : List SnapshotPositionInput) (price : ℚ) (dx dy : ℕ) (now : ℤ)
    (today : ℕ) :
    ((takeSnapshot st ps price dx dy now today).2).priceHistory =
      (takeSnapshotAccum st ps price dx dy now).history := by
  unfold takeSnapshot cleanOldData
  split <;> rfl

/-- Both branches of `takeSnapshot` carry the loop's updated ratio map
into the resulting state. -/
theorem takeSnapshot_snd_lastSolRatios (st : TrackerState)
    (ps : List SnapshotPositionInput) (price : ℚ) (dx dy : ℕ) (now : ℤ)
    (today : ℕ) :
    ((takeSnapshot st ps price dx dy now today).2).lastSolRatios =
      (takeSnapshotAccum st ps price dx dy now).ratios := by
  unfold takeSnapshot cleanOldData
  split <;> rfl

/-- Every `takeSnapshot` call returns the snapshot freshly computed from
its own inputs. -/
theorem takeSnapshot_fst (st : TrackerState)
    (ps : List SnapshotPositionInput) (price : ℚ) (dx dy : ℕ) (now : ℤ)
    (today : ℕ) :
    (takeSnapshot st ps price dx dy now today).1 =
      ⟨now, positionsTotalValue ps dx dy, price,
        (takeSnapshotAccum st ps price dx dy now).values⟩ := by
  unfold takeSnapshot
  rw [← takeSnapshotAccum_totalValue st ps price dx dy now]
  split <;> rfl

/-- In the persisting branch the throttle timestamp advances to `now`. -/
theorem takeSnapshot_persisted_lastTime (st : TrackerState)
    (ps : List SnapshotPositionInput) (price : ℚ) (dx dy : ℕ) (now : ℤ)
    (today : ℕ) (h : takeSnapshotPersists st now = true) :
    ((takeSnapshot st ps price dx dy now today).2).lastSnapshotTime = now := by
  rw [takeSnapshot_persisted st ps price dx dy now today h]
  rfl

/-- C4 (amended): for two `takeSnapshot` calls whose timestamps are less
than `snapshotIntervalMs` apart, at most one durable snapshot row is
written — exactly one when the first call persists (and none of the two
when both are inside the throttle window); both calls still return the
snapshot computed from their own inputs, and the regime/price-history
side effects run on both calls regardless of the throttle. -/
theorem takeSnapshot_throttle_pair (st : TrackerState)
    (ps1 ps2 : List SnapshotPositionInput) (price1 price2 : ℚ)
    (dx dy : ℕ) (now1 now2 : ℤ) (today1 today2 : ℕ)
    (hclose : now2 - now1 < snapshotIntervalMs) :
    (takeSnapshotPersists st now1 = true →
      takeSnapshotPersists ((takeSnapshot st ps1 price1 dx dy now1 today1).2)
        now2 = false) ∧
    (takeSnapshotPersists st now1 = true →
      ((takeSnapshot st ps1 price1 dx dy now1 today1).2).snapshots =
        (st.snapshots ++
          [(⟨now1, positionsTotalValue ps1 dx dy, price1⟩ : SnapshotRow)]).filter
          (fun s => decide (¬ s.timestamp < now1 - thirtyDaysMs)) ∧
      ((takeSnapshot ((takeSnapshot st ps1 price1 dx dy now1 today1).2) ps2
          price2 dx dy now2 today2).2).snapshots =
        ((takeSnapshot st ps1 price1 dx dy now1 today1).2).snapshots) ∧
    (takeSnapshotPersists st now1 = false →
      ((takeSnapshot st ps1 price1 dx dy now1 today1).2).snapshots =
        st.snapshots) ∧
    (takeSnapshot st ps1 price1 dx dy now1 today1).1 =
      ⟨now1, positionsTotalValue ps1 dx dy, price1,
        (takeSnapshotAccum st ps1 price1 dx dy now1).values⟩ ∧
    (takeSnapshot ((takeSnapshot st ps1 price1 dx dy now1 today1).2) ps2
        price2 dx dy now2 today2).1 =
      ⟨now2, positionsTotalValue ps2 dx dy, price2,
        (takeSnapshotAccum ((takeSnapshot st ps1 price1 dx dy now1 today1).2)
          ps2 price2 dx dy now2).values⟩ ∧
    ((takeSnapshot st ps1 price1 dx dy now1 today1).2).priceHistory =
      (takeSnapshotAccum st ps1 price1 dx dy now1).history ∧
    ((takeSnapshot st ps1 price1 dx dy now1 today1).2).lastSolRatios =
      (takeSnapshotAccum st ps1 price1 dx dy now1).ratios ∧
    ((takeSnapshot ((takeSnapshot st ps1 price1 dx dy now1 today1).2) ps2
        price2 dx dy now2 today2).2).priceHistory =
      (takeSnapshotAccum ((takeSnapshot st ps1 price1 dx dy now1 today1).2)
        ps2 price2 dx dy now2).history := by
  have hsecond : takeSnapshotPersists st now1 = true →
      takeSnapshotPersists ((takeSnapshot st ps1 price1 dx dy now1 today1).2)
        now2 = false := by
    intro h1
    unfold takeSnapshotPersists
    rw [takeSnapshot_persisted_lastTime st ps1 price1 dx dy now1 today1 h1]
    simpa using hclose
  refine ⟨hsecond, ?_, ?_, takeSnapshot_fst st ps1 price1 dx dy now1 today1,
    takeSnapshot_fst _ ps2 price2 dx dy now2 today2,
    takeSnapshot_snd_priceHistory st ps1 price1 dx dy now1 today1,
    takeSnapshot_snd_lastSolRatios st ps1 price1 dx dy now1 today1,
    takeSnapshot_snd_priceHistory _ ps2 price2 dx dy now2 today2⟩
  · intro h1
    constructor
    · rw [takeSnapshot_persisted st ps1 price1 dx dy now1 today1 h1]
      unfold cleanOldData
      rw [takeSnapshotAccum_totalValue st ps1 price1 dx dy now1]
    · rw [takeSnapshot_throttled _ ps2 price2 dx dy now2 today2 (hsecond h1)]
  · intro h1
    rw [takeSnapshot_throttled st ps1 price1 dx dy now1 today1 h1]

/-- A state bootstrapped from a durable snapshot at time 0, whose next
two observations fall inside the throttle window. -/
def c4State : TrackerState :=
  { snapshots := [⟨0, 0, 1⟩]
    operations := []
    dailyPnl := []
    priceHistory := []
    lastSolRatios := []
    lastSnapshotTime := 0 }

/-- C4 counterexample: two calls 1 ms apart (both within the throttle
window of the last persisted snapshot) write no durable row at all, so
"exactly one durable row per close pair of calls" is false. -/
theorem takeSnapshot_double_throttle_counterexample :
    (2 : ℤ) - 1 < snapshotIntervalMs ∧
    takeSnapshotPersists c4State 1 = false ∧
    takeSnapshotPersists ((takeSnapshot c4State [] 1 9 6 1 0).2) 2 = false ∧
    ((takeSnapshot ((takeSnapshot c4State [] 1 9 6 1 0).2) [] 1 9 6 2 0).2).snapshots =
      c4State.snapshots := by
  have h1 : takeSnapshotPersists c4State 1 = false := by decide
  have e1 : (takeSnapshot c4State [] 1 9 6 1 0).2 = c4State := by
    rw [takeSnapshot_throttled c4State [] 1 9 6 1 0 h1]
    rfl
  have h2 : takeSnapshotPersists c4State 2 = false := by decide
  refine ⟨by decide, h1, ?_, ?_⟩
  · rw [e1]
    exact h2
  · rw [e1, takeSnapshot_throttled c4State [] 1 9 6 2 0 h2]

/-- An empty bootstrapped state whose first call persists. -/
def c4WitnessState : TrackerState :=
  { snapshots := []
    operations := []
    dailyPnl := []
    priceHistory := []
    lastSolRatios := []
    lastSnapshotTime := 0 }

/-- Witness for the amended C4: first call at the interval boundary
persists, the second call 1 ms later is throttled and leaves the
snapshots table unchanged. -/
theorem takeSnapshot_throttle_pair_witness :
    takeSnapshotPersists ((takeSnapshot c4WitnessState [] 1 9 6 600000 0).2)
      600001 = false ∧
    ((takeSnapshot ((takeSnapshot c4WitnessState [] 1 9 6 600000 0).2) []
        1 9 6 600001 0).2).snapshots =
      ((takeSnapshot c4WitnessState [] 1 9 6 600000 0).2).snapshots := by
  have h := takeSnapshot_throttle_pair c4WitnessState [] [] 1 1 9 6
    600000 600001 0 0 (by decide)
  have h1 : takeSnapshotPersists c4WitnessState 600000 = true := by decide
  exact ⟨h.1 h1, (h.2.1 h1).2⟩

/-- The daily upsert never removes a date: it appends a new row or maps a
date-preserving update over the table. -/
theorem updateDailyPnL_preserves_dates (rows : List DailyRow) (today : ℕ)
    (v : ℚ) (d : ℕ) (hex : ∃ r ∈ rows, r.date = d) :
    ∃ r ∈ updateDailyPnL rows today v, r.date = d := by
  obtain ⟨r, hr, hd⟩ := hex
  unfold updateDailyPnL
  cases hfind : findDaily rows today with
  | none =>
    simp only [hfind]
    exact ⟨r, List.mem_append_left _ hr, hd⟩
  | some r0 =>
    simp only [hfind]
    refine ⟨_, List.mem_map_of_mem _ hr, ?_⟩
    split <;> simp [hd]

/-- C10: a persisting snapshot call leaves exactly the snapshot rows from
the last 30 days (plus the new one) and the operation rows from the last
90 days, and neither a snapshot call (in either branch), nor an operation
record, nor the daily upsert itself ever drops a date from the daily-PnL
table. -/
theorem snapshotWrite_retention_dailyPreserved (st : TrackerState)
    (ps : List SnapshotPositionInput) (price : ℚ) (dx dy : ℕ) (now : ℤ)
    (today : ℕ) (key : String) (act : ActionType)
    (beforeV afterV amount : ℚ) (txSig : Option String) :
    (takeSnapshotPersists st now = true →
      ((takeSnapshot st ps price dx dy now today).2).snapshots =
        (st.snapshots ++
          [(⟨now, positionsTotalValue ps dx dy, price⟩ : SnapshotRow)]).filter
          (fun s => decide (¬ s.timestamp < now - thirtyDaysMs)) ∧
      ((takeSnapshot st ps price dx dy now today).2).operations =
        st.operations.filter
          (fun o => decide (¬ o.timestamp < now - ninetyDaysMs))) ∧
    (∀ d, (∃ r ∈ st.dailyPnl, r.date = d) →
      ∃ r ∈ ((takeSnapshot st ps price dx dy now today).2).dailyPnl,
        r.date = d) ∧
    (∀ d, (∃ r ∈ st.dailyPnl, r.date = d) →
      ∃ r ∈ (recordOperation st now today key act beforeV afterV amount
        txSig).dailyPnl, r.date = d) := by
  refine ⟨?_, ?_, ?_⟩
  · intro h1
    rw [takeSnapshot_persisted st ps price dx dy now today h1]
    unfold cleanOldData
    rw [takeSnapshotAccum_totalValue st ps price dx dy now]
    exact ⟨rfl, rfl⟩
  · intro d hex
    by_cases h1 : takeSnapshotPersists st now = true
    · rw [takeSnapshot_persisted st ps price dx dy now today h1]
      show ∃ r ∈ updateDailyPnL st.dailyPnl today _, r.date = d
      exact updateDailyPnL_preserves_dates _ _ _ _ hex
    · have h0 : takeSnapshotPersists st now = false := by
        revert h1
        cases takeSnapshotPersists st now <;> simp
      rw [takeSnapshot_throttled st ps price dx dy now today h0]
      exact hex
  · intro d hex
    obtain ⟨r, hr, hd⟩ := hex
    unfold recordOperation
    refine ⟨_, List.mem_map_of_mem _ hr, ?_⟩
    split <;> simp [hd]

/-- A state with one daily row and an old-enough last snapshot so that
the next call persists. -/
def c10State : TrackerState :=
  { snapshots := [⟨0, 0, 1⟩]
    operations := []
    dailyPnl := [⟨0, 1, 2, 2, 1, 1, 100, 0⟩]
    priceHistory := []
    lastSolRatios := []
    lastSnapshotTime := 0 }

/-- Witness for C10 at a concrete persisting call: the operations table is
the 90-day filter of an empty table, and the pre-existing daily row's date
survives. -/
theorem snapshotWrite_retention_dailyPreserved_witness :
    ((takeSnapshot c10State [] 1 9 6 1200000 1).2).operations = [] ∧
    (∃ r ∈ ((takeSnapshot c10State [] 1 9 6 1200000 1).2).dailyPnl,
      r.date = 0) := by
  have h := snapshotWrite_retention_dailyPreserved c10State [] 1 9 6
    1200000 1 "k" .bid 0 0 0 none
  have h1 : takeSnapshotPersists c10State 1200000 = true := by decide
  refine ⟨?_, h.2.1 0 ⟨⟨0, 1, 2, 2, 1, 1, 100, 0⟩, by simp [c10State], rfl⟩⟩
  rw [(h.1 h1).2]
  rfl

end MeteoraBot
